import Mathlib

/-!
Shallow embedding of `cmyr/rust-test-tools` (`src/lib.rs`).

The crate provides `BlockTimer`, a scoped timer that prints a line
`"<label>: <pretty-duration>"` to stderr when stopped or dropped, and
`PrettyDuration`, a decomposition of a `std::time::Duration` into
seconds / millis / micros / nanos used by its `fmt::Display` impl.

Modelling conventions:
* `std::time::Duration` is a pair of a `u64` seconds count and a
  sub-second nanosecond count `< 10^9`; we carry both bounds as proof
  fields.
* Monotonic instants (`std::time::Instant`) are modelled as a
  nanosecond timestamp (`Nat`); `Instant::elapsed` is truncated
  subtraction, matching the saturating behaviour of the Rust API.
* `u64` arithmetic wraps modulo `2^64` (release-mode semantics), made
  explicit with `% 18446744073709551616`.
* Printing to stderr is modelled by returning the list of emitted
  lines (each line carries its trailing newline, as `eprintln!` emits).
* Rust's decimal `Display` of an unsigned integer is embedded as
  `decimalRepr` (most-significant digit first, no leading zeros,
  the single digit `0` for zero).
-/

/-- One decimal digit `d < 10` as the character `'0'..'9'`. -/
def digitChar (d : Nat) : Char := Char.ofNat (48 + d)

/-- Fuel-driven decimal rendering: emits the digits of `n`, most
significant first.  Any `fuel > n` is adequate. -/
def natToDecimalAux : Nat → Nat → List Char
  | 0, _ => []
  | fuel + 1, n =>
    if n < 10 then [digitChar n]
    else natToDecimalAux fuel (n / 10) ++ [digitChar (n % 10)]

/-- Decimal rendering of a `Nat`, embedding Rust's `Display` for
unsigned integers: no leading zeros, `0` for zero. -/
def natToDecimal (n : Nat) : List Char := natToDecimalAux (n + 1) n

/-- The decimal string for `n`. -/
def decimalRepr (n : Nat) : String := String.mk (natToDecimal n)

/-- `std::time::Duration`: `u64` whole seconds plus sub-second
nanoseconds `< 10^9`. -/
structure Duration where
  secs : Nat
  nanos : Nat
  secs_lt : secs < 18446744073709551616
  nanos_lt : nanos < 1000000000

/-- The mathematically true total nanosecond count of a duration. -/
def Duration.totalNanos (d : Duration) : Nat :=
  d.secs * 1000000000 + d.nanos

/-- `Duration::from_nanos` (the `u64` argument is reduced mod `2^64`). -/
def Duration.from_nanos (n : Nat) : Duration where
  secs := n % 18446744073709551616 / 1000000000
  nanos := n % 18446744073709551616 % 1000000000
  secs_lt := Nat.lt_of_le_of_lt (Nat.div_le_self _ _) (Nat.mod_lt _ (by decide))
  nanos_lt := Nat.mod_lt _ (by decide)

/-- `fn nanos_from_duration(d: Duration) -> u64`:
`d.as_secs() * 1_000_000_000 + d.subsec_nanos() as u64`, in wrapping
`u64` arithmetic. -/
def nanos_from_duration (d : Duration) : Nat :=
  (d.secs * 1000000000 + d.nanos) % 18446744073709551616

/-- `struct PrettyDuration`: four `u64` fields. -/
structure PrettyDuration where
  secs : Nat
  millis : Nat
  micros : Nat
  nanos : Nat

/-- `PrettyDuration::new`, transcribed from the source: successive
division and subtraction on the `u64` nanosecond count. -/
def PrettyDuration.new (dur : Duration) : PrettyDuration :=
  let d := nanos_from_duration dur
  let secs := d / 1000000000
  let d := d - secs * 1000000000
  let millis := d / 1000000
  let d := d - millis * 1000000
  let micros := d / 1000
  let nanos := d - micros * 1000
  { secs := secs, millis := millis, micros := micros, nanos := nanos }

/-- `impl fmt::Display for PrettyDuration`: the rendered string. -/
def PrettyDuration.fmt (p : PrettyDuration) : String :=
  if p.secs > 0 then
    decimalRepr p.secs ++ "." ++ decimalRepr (p.millis / 100) ++ "s"
  else if p.millis > 0 then
    decimalRepr p.millis ++ "." ++ decimalRepr (p.micros / 100) ++ "ms"
  else if p.micros > 0 then
    decimalRepr p.micros ++ "us"
  else
    decimalRepr p.nanos ++ "ns"

/-- `Instant::elapsed`: the duration from `start` to `now`
(saturating at zero, as in Rust). -/
def Instant.elapsed (start now : Nat) : Duration :=
  Duration.from_nanos (now - start)

/-- `struct BlockTimer` (the `Cow<'static, str>` label is observable
only as its text, so it is a `String`). -/
structure BlockTimer where
  label : String
  start : Nat
  stopped : Bool

/-- `BlockTimer::new`: captures the label and the current instant;
`stopped` starts out `false`. -/
def BlockTimer.new (label : String) (now : Nat) : BlockTimer :=
  { label := label, start := now, stopped := false }

/-- The line `stop` prints: `eprintln!("{}: {}", self.label, d)`. -/
def reportLine (t : BlockTimer) (now : Nat) : String :=
  t.label ++ ": " ++ (PrettyDuration.new (Instant.elapsed t.start now)).fmt ++ "\n"

/-- `BlockTimer::stop`: sets the flag and unconditionally prints one
report line.  Returns the updated timer and the emitted output. -/
def BlockTimer.stop (t : BlockTimer) (now : Nat) : BlockTimer × List String :=
  ({ t with stopped := true }, [reportLine t now])

/-- `impl Drop for BlockTimer`: `if self.stopped { return } self.stop()`. -/
def BlockTimer.drop (t : BlockTimer) (now : Nat) : BlockTimer × List String :=
  if t.stopped then (t, []) else t.stop now

/-- Run a sequence of explicit `stop` calls (one clock reading per
call), collecting all emitted lines in order. -/
def runStops : BlockTimer → List Nat → BlockTimer × List String
  | t, [] => (t, [])
  | t, now :: rest =>
    let s := t.stop now
    let r := runStops s.1 rest
    (r.1, s.2 ++ r.2)

/-- The full observable lifetime of one timer: construction, a list
of explicit `stop` calls, then scope exit (`drop`). -/
def lifetimeOutput (label : String) (startNow : Nat)
    (stopTimes : List Nat) (dropTime : Nat) : List String :=
  let t := BlockTimer.new label startNow
  let s := runStops t stopTimes
  let d := s.1.drop dropTime
  s.2 ++ d.2

/-- `c` is a decimal digit character `'0'..'9'`. -/
def isDigitChar (c : Char) : Prop := 48 ≤ c.toNat ∧ c.toNat ≤ 57

/-- The spec's numeral grammar: a non-empty string of decimal digits
with no leading zero (except the literal value `0`). -/
def isPlainNumeral (s : String) : Prop :=
  s.data ≠ [] ∧ (∀ c ∈ s.data, isDigitChar c) ∧ (s.data.head? = some '0' → s = "0")

/-- The spec's rendered-duration grammar (§6): one of
`SECONDS "." DIGIT "s"`, `MILLIS "." DIGIT "ms"`, `MICROS "us"`,
`NANOS "ns"`. -/
def matchesDurationGrammar (s : String) : Prop :=
  (∃ a c, isPlainNumeral a ∧ isDigitChar c ∧ s = a ++ "." ++ String.mk [c] ++ "s") ∨
  (∃ a c, isPlainNumeral a ∧ isDigitChar c ∧ s = a ++ "." ++ String.mk [c] ++ "ms") ∨
  (∃ a, isPlainNumeral a ∧ s = a ++ "us") ∨
  (∃ a, isPlainNumeral a ∧ s = a ++ "ns")

/-! ## Helper lemmas -/

/-- A digit value below ten renders as a digit character. -/
theorem isDigitChar_digitChar {d : Nat} (h : d < 10) : isDigitChar (digitChar d) := by
  interval_cases d <;> exact ⟨by decide, by decide⟩

/-- With positive fuel the digit list is non-empty. -/
theorem natToDecimalAux_ne_nil (fuel n : Nat) (h : 0 < fuel) :
    natToDecimalAux fuel n ≠ [] := by
  cases fuel with
  | zero => omega
  | succ fuel =>
    rw [natToDecimalAux]
    by_cases h10 : n < 10 <;> simp [h10]

/-- Every emitted character is a decimal digit. -/
theorem mem_natToDecimalAux {fuel n : Nat} {c : Char}
    (h : c ∈ natToDecimalAux fuel n) : isDigitChar c := by
  induction fuel generalizing n with
  | zero => simp [natToDecimalAux] at h
  | succ fuel ih =>
    rw [natToDecimalAux] at h
    by_cases h10 : n < 10
    · rw [if_pos h10] at h
      simp only [List.mem_singleton] at h
      subst h
      exact isDigitChar_digitChar h10
    · rw [if_neg h10] at h
      rcases List.mem_append.mp h with h1 | h2
      · exact ih h1
      · simp only [List.mem_singleton] at h2
        subst h2
        exact isDigitChar_digitChar (Nat.mod_lt _ (by decide))

/-- With adequate fuel and a positive input, the leading digit is not
`'0'`. -/
theorem natToDecimalAux_head_ne_zero {fuel n : Nat} (hn : 0 < n) (hf : n < fuel) :
    (natToDecimalAux fuel n).head? ≠ some '0' := by
  induction fuel generalizing n with
  | zero => omega
  | succ fuel ih =>
    rw [natToDecimalAux]
    by_cases h10 : n < 10
    · rw [if_pos h10]
      interval_cases n <;> decide
    · rw [if_neg h10]
      have hf' : n / 10 < fuel := by omega
      have hn' : 0 < n / 10 := Nat.div_pos (by omega) (by decide)
      obtain ⟨a, as, hA⟩ :=
        List.exists_cons_of_ne_nil
          (natToDecimalAux_ne_nil fuel (n / 10) (Nat.lt_of_le_of_lt (Nat.zero_le _) hf'))
      have hhead := ih hn' hf'
      rw [hA] at hhead ⊢
      simpa using hhead

/-- The decimal rendering of any `Nat` satisfies the spec's numeral
grammar. -/
theorem isPlainNumeral_decimalRepr (n : Nat) : isPlainNumeral (decimalRepr n) := by
  unfold isPlainNumeral
  refine ⟨natToDecimalAux_ne_nil (n + 1) n (Nat.succ_pos n), ?_, ?_⟩
  · intro c hc
    exact mem_natToDecimalAux hc
  · intro hhead
    by_cases hn : n = 0
    · subst hn; decide
    · exact absurd hhead
        (natToDecimalAux_head_ne_zero (Nat.pos_of_ne_zero hn) (Nat.lt_succ_self n))

/-- A value below ten renders as a single digit character. -/
theorem decimalRepr_single (n : Nat) (h : n < 10) :
    decimalRepr n = String.mk [digitChar n] := by
  simp [decimalRepr, natToDecimal, natToDecimalAux, h]

/-- `PrettyDuration::new` computes the canonical base-1000 remainder
decomposition of the (wrapped) nanosecond count. -/
theorem PrettyDuration.new_eq (dur : Duration) :
    PrettyDuration.new dur =
      { secs := nanos_from_duration dur / 1000000000,
        millis := nanos_from_duration dur % 1000000000 / 1000000,
        micros := nanos_from_duration dur % 1000000 / 1000,
        nanos := nanos_from_duration dur % 1000 } := by
  simp only [PrettyDuration.new, PrettyDuration.mk.injEq]
  exact ⟨trivial, by omega, by omega, by omega⟩

/-- The three residual fields of the decomposition are below 1000. -/
theorem PrettyDuration.new_bounds (dur : Duration) :
    (PrettyDuration.new dur).millis < 1000 ∧ (PrettyDuration.new dur).micros < 1000 ∧
      (PrettyDuration.new dur).nanos < 1000 := by
  simp only [PrettyDuration.new_eq]
  exact ⟨by omega, by omega, by omega⟩

/-- Full case analysis of the rendered string, phrased on the wrapped
nanosecond count `nanos_from_duration dur`: exactly one of the four
formats applies, selected by the magnitude of the count (equivalently,
by the coarsest non-zero field of the decomposition). -/
theorem fmt_new_spec (dur : Duration) :
    (1000000000 ≤ nanos_from_duration dur ∧ 0 < (PrettyDuration.new dur).secs ∧
      (PrettyDuration.new dur).fmt =
        decimalRepr (nanos_from_duration dur / 1000000000) ++ "." ++
          decimalRepr (nanos_from_duration dur % 1000000000 / 100000000) ++ "s") ∨
    (1000000 ≤ nanos_from_duration dur ∧ nanos_from_duration dur < 1000000000 ∧
      0 < (PrettyDuration.new dur).millis ∧
      (PrettyDuration.new dur).fmt =
        decimalRepr (nanos_from_duration dur / 1000000) ++ "." ++
          decimalRepr (nanos_from_duration dur % 1000000 / 100000) ++ "ms") ∨
    (1000 ≤ nanos_from_duration dur ∧ nanos_from_duration dur < 1000000 ∧
      0 < (PrettyDuration.new dur).micros ∧
      (PrettyDuration.new dur).fmt =
        decimalRepr (nanos_from_duration dur / 1000) ++ "us") ∨
    (nanos_from_duration dur < 1000 ∧
      (PrettyDuration.new dur).fmt = decimalRepr (nanos_from_duration dur) ++ "ns") := by
  have he := PrettyDuration.new_eq dur
  rw [he]
  generalize nanos_from_duration dur = n
  rcases Nat.lt_or_ge n 1000 with h1 | h1
  · right; right; right
    refine ⟨h1, ?_⟩
    simp only [PrettyDuration.fmt]
    rw [if_neg (by omega), if_neg (by omega), if_neg (by omega)]
    have e : n % 1000 = n := by omega
    rw [e]
  · rcases Nat.lt_or_ge n 1000000 with h2 | h2
    · right; right; left
      refine ⟨h1, h2, by show 0 < n % 1000000 / 1000; omega, ?_⟩
      simp only [PrettyDuration.fmt]
      rw [if_neg (by omega), if_neg (by omega), if_pos (by omega)]
      have e : n % 1000000 / 1000 = n / 1000 := by omega
      rw [e]
    · rcases Nat.lt_or_ge n 1000000000 with h3 | h3
      · right; left
        refine ⟨h2, h3, by show 0 < n % 1000000000 / 1000000; omega, ?_⟩
        simp only [PrettyDuration.fmt]
        rw [if_neg (by omega), if_pos (by omega)]
        have e1 : n % 1000000000 / 1000000 = n / 1000000 := by omega
        have e2 : n % 1000000 / 1000 / 100 = n % 1000000 / 100000 := by omega
        rw [e1, e2]
      · left
        refine ⟨h3, by show 0 < n / 1000000000; omega, ?_⟩
        simp only [PrettyDuration.fmt]
        rw [if_pos (by omega)]
        have e : n % 1000000000 / 1000000 / 100 = n % 1000000000 / 100000000 := by omega
        rw [e]

/-- `runStops` emits exactly one line per explicit `stop` call. -/
theorem runStops_length (t : BlockTimer) (ts : List Nat) :
    (runStops t ts).2.length = ts.length := by
  induction ts generalizing t with
  | nil => rfl
  | cons now rest ih => simp [runStops, BlockTimer.stop, ih]

/-- After `runStops` the flag is set iff it already was, or at least
one explicit `stop` ran. -/
theorem runStops_stopped (t : BlockTimer) (ts : List Nat) :
    (runStops t ts).1.stopped = (t.stopped || !ts.isEmpty) := by
  induction ts generalizing t with
  | nil => simp [runStops]
  | cons now rest ih => simp [runStops, BlockTimer.stop, ih]

/-- Every line emitted by a sequence of explicit stops is a report
line for the timer's label. -/
theorem runStops_lines (t : BlockTimer) (ts : List Nat) :
    ∀ line ∈ (runStops t ts).2,
      ∃ d : Duration, line = t.label ++ ": " ++ (PrettyDuration.new d).fmt ++ "\n" := by
  induction ts generalizing t with
  | nil =>
    intro line h
    simp [runStops] at h
  | cons now rest ih =>
    intro line h
    simp only [runStops, BlockTimer.stop] at h
    rcases List.mem_append.mp h with h1 | h2
    · simp only [List.mem_singleton] at h1
      exact ⟨Instant.elapsed t.start now, by rw [h1]; rfl⟩
    · obtain ⟨d, hd⟩ := ih { t with stopped := true } line h2
      exact ⟨d, hd⟩

/-- Every line emitted by `drop` is a report line for the timer's
label. -/
theorem drop_lines (t : BlockTimer) (now : Nat) :
    ∀ line ∈ (t.drop now).2,
      ∃ d : Duration, line = t.label ++ ": " ++ (PrettyDuration.new d).fmt ++ "\n" := by
  intro line h
  rw [BlockTimer.drop] at h
  by_cases hs : t.stopped = true
  · simp [hs] at h
  · simp only [hs, if_neg, Bool.false_eq_true, if_false, BlockTimer.stop,
      List.mem_singleton] at h
    exact ⟨Instant.elapsed t.start now, by rw [h]; rfl⟩

/-- `drop` emits one line when the flag is clear and none when set. -/
theorem drop_length (t : BlockTimer) (now : Nat) :
    (t.drop now).2.length = if t.stopped then 0 else 1 := by
  rw [BlockTimer.drop]
  by_cases hs : t.stopped = true <;> simp [hs, BlockTimer.stop]

/-- `runStops` does not change the label. -/
theorem runStops_label (t : BlockTimer) (ts : List Nat) :
    (runStops t ts).1.label = t.label := by
  induction ts generalizing t with
  | nil => rfl
  | cons now rest ih => simp [runStops, BlockTimer.stop, ih]

/-! ## Claims -/

/-- Claim C1, counterexample: two explicit `stop` calls emit two report
lines, not the single line a lone `stop` emits — `stop` prints
unconditionally and never consults the `stopped` flag. -/
theorem C1_counterexample :
    (runStops (BlockTimer.new "x" 0) [5, 5]).2.length = 2 ∧
    (runStops (BlockTimer.new "x" 0) [5]).2.length = 1 ∧
    (runStops (BlockTimer.new "x" 0) [5, 5]).2 ≠ (runStops (BlockTimer.new "x" 0) [5]).2 :=
  ⟨by decide, by decide, by decide⟩

/-- Claim C1 as amended: every explicit `stop` call emits exactly one
report line (so a second explicit `stop` emits a second line), while
scope exit after an explicit `stop` is the silent no-op. -/
theorem C1_second_stop_reports (t : BlockTimer) (n1 n2 : Nat) :
    (t.stop n1).2.length = 1 ∧ ((t.stop n1).1.stop n2).2.length = 1 ∧
      ((t.stop n1).1.drop n2).2 = [] :=
  ⟨rfl, rfl, rfl⟩

/-- Claim C2, counterexample: a lifetime with two explicit `stop`
calls followed by scope exit emits two report lines, not one. -/
theorem C2_counterexample :
    (lifetimeOutput "x" 0 [5, 5] 9).length = 2 ∧
      (lifetimeOutput "x" 0 [5, 5] 9).length ≠ 1 :=
  ⟨by decide, by decide⟩

/-- Claim C2 as amended: a lifetime of `k` explicit `stop` calls
followed by scope exit emits exactly `max 1 k` report lines — exactly
one line only when there is at most one explicit `stop` call. -/
theorem C2_report_count (label : String) (start : Nat) (stops : List Nat) (dropT : Nat) :
    (lifetimeOutput label start stops dropT).length = max 1 stops.length := by
  simp only [lifetimeOutput, List.length_append, runStops_length, drop_length,
    runStops_stopped]
  cases stops with
  | nil => simp [BlockTimer.new]
  | cons a l => simp [BlockTimer.new]

/-- Claim C3: for every nanosecond count `n` that fits in a `u64`,
the four fields of `PrettyDuration::new (Duration::from_nanos n)`
recombine as `secs*1e9 + millis*1e6 + micros*1e3 + nanos = n`. -/
theorem C3_roundtrip (n : Nat) (h : n < 18446744073709551616) :
    (PrettyDuration.new (Duration.from_nanos n)).secs * 1000000000 +
      (PrettyDuration.new (Duration.from_nanos n)).millis * 1000000 +
      (PrettyDuration.new (Duration.from_nanos n)).micros * 1000 +
      (PrettyDuration.new (Duration.from_nanos n)).nanos = n := by
  have hn : nanos_from_duration (Duration.from_nanos n) = n := by
    simp only [nanos_from_duration, Duration.from_nanos]
    omega
  simp only [PrettyDuration.new_eq, hn]
  omega

/-- Witness for C3 at `n = 1999900123`. -/
theorem C3_roundtrip_at_sample :
    1999900123 < 18446744073709551616 ∧
    (PrettyDuration.new (Duration.from_nanos 1999900123)).secs * 1000000000 +
      (PrettyDuration.new (Duration.from_nanos 1999900123)).millis * 1000000 +
      (PrettyDuration.new (Duration.from_nanos 1999900123)).micros * 1000 +
      (PrettyDuration.new (Duration.from_nanos 1999900123)).nanos = 1999900123 :=
  ⟨by decide, C3_roundtrip 1999900123 (by decide)⟩

/-- Claim C4: the rendered string is exactly one of four mutually
exclusive formats, selected in priority order by the coarsest
non-zero field (equivalently by the magnitude of the nanosecond
count), with the truncated sub-unit digit `millis/100 = D % 1e9 / 1e8`
resp. `micros/100 = D % 1e6 / 1e5`; an exactly-zero duration renders
as `"0ns"`. -/
theorem C4_format_selection (dur : Duration) :
    ((1000000000 ≤ nanos_from_duration dur ∧ 0 < (PrettyDuration.new dur).secs ∧
      (PrettyDuration.new dur).fmt =
        decimalRepr (nanos_from_duration dur / 1000000000) ++ "." ++
          decimalRepr (nanos_from_duration dur % 1000000000 / 100000000) ++ "s") ∨
    (1000000 ≤ nanos_from_duration dur ∧ nanos_from_duration dur < 1000000000 ∧
      0 < (PrettyDuration.new dur).millis ∧
      (PrettyDuration.new dur).fmt =
        decimalRepr (nanos_from_duration dur / 1000000) ++ "." ++
          decimalRepr (nanos_from_duration dur % 1000000 / 100000) ++ "ms") ∨
    (1000 ≤ nanos_from_duration dur ∧ nanos_from_duration dur < 1000000 ∧
      0 < (PrettyDuration.new dur).micros ∧
      (PrettyDuration.new dur).fmt =
        decimalRepr (nanos_from_duration dur / 1000) ++ "us") ∨
    (nanos_from_duration dur < 1000 ∧
      (PrettyDuration.new dur).fmt = decimalRepr (nanos_from_duration dur) ++ "ns")) ∧
    (dur.totalNanos = 0 → (PrettyDuration.new dur).fmt = "0ns") := by
  refine ⟨fmt_new_spec dur, ?_⟩
  intro h
  have hn : nanos_from_duration dur = 0 := by
    simp only [Duration.totalNanos] at h
    simp only [nanos_from_duration]
    omega
  rcases fmt_new_spec dur with ⟨h1, _, _⟩ | ⟨h1, _, _, _⟩ | ⟨h1, _, _, _⟩ | ⟨_, hf⟩
  · omega
  · omega
  · omega
  · rw [hf, hn]
    decide

/-- Witness for C4's zero-duration clause. -/
theorem C4_format_selection_at_zero :
    (Duration.from_nanos 0).totalNanos = 0 ∧
      (PrettyDuration.new (Duration.from_nanos 0)).fmt = "0ns" :=
  ⟨by decide, (C4_format_selection (Duration.from_nanos 0)).2 (by decide)⟩

/-- Claim C5: the sub-unit digit truncates and never rounds:
1,999,900,000 ns renders as `"1.9s"`, 1,999,000 ns as `"1.9ms"`, and
1,050,000,000 ns as `"1.0s"`. -/
theorem C5_truncation_examples :
    (PrettyDuration.new (Duration.from_nanos 1999900000)).fmt = "1.9s" ∧
    (PrettyDuration.new (Duration.from_nanos 1999000)).fmt = "1.9ms" ∧
    (PrettyDuration.new (Duration.from_nanos 1050000000)).fmt = "1.0s" :=
  ⟨by decide, by decide, by decide⟩

/-- Claim C6: the decomposition's fields are natural numbers (hence
non-negative) and the residual millis, micros and nanos fields are
each at most 999, for every duration. -/
theorem C6_field_bounds (dur : Duration) :
    (PrettyDuration.new dur).millis ≤ 999 ∧ (PrettyDuration.new dur).micros ≤ 999 ∧
      (PrettyDuration.new dur).nanos ≤ 999 := by
  have h := PrettyDuration.new_bounds dur
  omega

/-- Claim C7: every rendered string matches the spec's grammar: one of
the four productions, with numerals free of leading zeros and a
single decimal digit in the sub-unit position. -/
theorem C7_grammar (dur : Duration) :
    matchesDurationGrammar ((PrettyDuration.new dur).fmt) := by
  rcases fmt_new_spec dur with ⟨h1, _, hf⟩ | ⟨h1, h2, _, hf⟩ | ⟨h1, h2, _, hf⟩ | ⟨h1, hf⟩
  · left
    refine ⟨decimalRepr (nanos_from_duration dur / 1000000000),
      digitChar (nanos_from_duration dur % 1000000000 / 100000000),
      isPlainNumeral_decimalRepr _, isDigitChar_digitChar (by omega), ?_⟩
    rw [hf,
      decimalRepr_single (nanos_from_duration dur % 1000000000 / 100000000) (by omega)]
  · right; left
    refine ⟨decimalRepr (nanos_from_duration dur / 1000000),
      digitChar (nanos_from_duration dur % 1000000 / 100000),
      isPlainNumeral_decimalRepr _, isDigitChar_digitChar (by omega), ?_⟩
    rw [hf,
      decimalRepr_single (nanos_from_duration dur % 1000000 / 100000) (by omega)]
  · right; right; left
    exact ⟨decimalRepr (nanos_from_duration dur / 1000), isPlainNumeral_decimalRepr _, hf⟩
  · right; right; right
    exact ⟨decimalRepr (nanos_from_duration dur), isPlainNumeral_decimalRepr _, hf⟩

/-- Claim C8: the `Drop` finalizer consults the `stopped` flag: when
already stopped it does nothing and emits nothing; when still running
it performs exactly the `stop` logic, emitting the report line. -/
theorem C8_drop_behaviour (t : BlockTimer) (now : Nat) :
    (t.stopped = true → t.drop now = (t, [])) ∧
    (t.stopped = false →
      t.drop now = t.stop now ∧ (t.drop now).2 = [reportLine t now]) := by
  constructor
  · intro h
    simp [BlockTimer.drop, h]
  · intro h
    simp [BlockTimer.drop, h, BlockTimer.stop]

/-- Witness for C8 at concrete stopped and running timers. -/
theorem C8_drop_behaviour_cases :
    ((⟨"a", 0, true⟩ : BlockTimer).drop 5 = ((⟨"a", 0, true⟩ : BlockTimer), [])) ∧
    ((⟨"a", 0, false⟩ : BlockTimer).drop 5 = (⟨"a", 0, false⟩ : BlockTimer).stop 5) :=
  ⟨(C8_drop_behaviour ⟨"a", 0, true⟩ 5).1 rfl,
    ((C8_drop_behaviour ⟨"a", 0, false⟩ 5).2 rfl).1⟩

/-- Claim C9: every line a timer ever writes has exactly the form
`"<label>: <rendered-duration>\n"` — the verbatim construction label,
the formatter's output, nothing else. -/
theorem C9_report_shape (label : String) (start : Nat) (stops : List Nat) (dropT : Nat) :
    ∀ line ∈ lifetimeOutput label start stops dropT,
      ∃ d : Duration, line = label ++ ": " ++ (PrettyDuration.new d).fmt ++ "\n" := by
  intro line h
  simp only [lifetimeOutput] at h
  rcases List.mem_append.mp h with h1 | h2
  · exact runStops_lines (BlockTimer.new label start) stops line h1
  · have h3 := drop_lines _ dropT line h2
    rw [runStops_label] at h3
    exact h3

/-- Witness for C9: the spec's concrete scenario, a timer labelled
`work` dropped after 2,340,000 ns. -/
theorem C9_report_shape_at_sample :
    "work: 2.3ms\n" ∈ lifetimeOutput "work" 0 [] 2340000 ∧
    ∃ d : Duration,
      "work: 2.3ms\n" = "work" ++ ": " ++ (PrettyDuration.new d).fmt ++ "\n" :=
  ⟨by decide, C9_report_shape "work" 0 [] 2340000 _ (by decide)⟩

/-- Claim C10: `nanos_from_duration` is exact precisely on durations
whose true nanosecond total fits in a `u64`: for every duration below
`2^64` ns the result is the true total, while for every larger
duration the `u64` multiplication wraps, the result misses the true
total, and the decomposition invariant fails. -/
theorem C10_u64_overflow :
    (∀ d : Duration, d.totalNanos < 18446744073709551616 →
      nanos_from_duration d = d.totalNanos) ∧
    (∀ d : Duration, 18446744073709551616 ≤ d.totalNanos →
      nanos_from_duration d ≠ d.totalNanos ∧
      (PrettyDuration.new d).secs * 1000000000 + (PrettyDuration.new d).millis * 1000000 +
        (PrettyDuration.new d).micros * 1000 + (PrettyDuration.new d).nanos ≠
          d.totalNanos) := by
  constructor
  · intro d h
    simp only [nanos_from_duration, Duration.totalNanos] at h ⊢
    omega
  · intro d h
    have hlt : nanos_from_duration d < 18446744073709551616 :=
      Nat.mod_lt _ (by decide)
    have hr : (PrettyDuration.new d).secs * 1000000000 +
        (PrettyDuration.new d).millis * 1000000 +
        (PrettyDuration.new d).micros * 1000 + (PrettyDuration.new d).nanos =
          nanos_from_duration d := by
      simp only [PrettyDuration.new_eq]
      omega
    exact ⟨by omega, by omega⟩

/-- Witness for C10: exactness at a small duration, and overflow at
the maximal `Duration`. -/
theorem C10_exact_at_sample :
    ((⟨5, 7, by decide, by decide⟩ : Duration).totalNanos < 18446744073709551616 ∧
      nanos_from_duration ⟨5, 7, by decide, by decide⟩ =
        (⟨5, 7, by decide, by decide⟩ : Duration).totalNanos) ∧
    (18446744073709551616 ≤
        (⟨18446744073709551615, 999999999, by decide, by decide⟩ : Duration).totalNanos ∧
      nanos_from_duration ⟨18446744073709551615, 999999999, by decide, by decide⟩ ≠
        (⟨18446744073709551615, 999999999, by decide, by decide⟩ : Duration).totalNanos) :=
  ⟨⟨by decide, C10_u64_overflow.1 ⟨5, 7, by decide, by decide⟩ (by decide)⟩,
    ⟨by decide,
      (C10_u64_overflow.2 ⟨18446744073709551615, 999999999, by decide, by decide⟩
        (by decide)).1⟩⟩
